import Mathlib

/-!
Verification of the image-lite batch image optimizer: a shallow embedding of
the quality-rule resolution engine, the timestamp-based change detection, the
error-recovery (retry) coordinator, and the orchestration loop, translated
from the JavaScript sources, together with theorems settling the spec's
claims about them.
-/

namespace ImageLite

/-! ## JavaScript string and truthiness helpers

The engine code uses `String.prototype.includes`, `endsWith`, a global
character replace, and JS truthiness on optional fields.  We model strings as
Lean `String` and operate on their character lists. -/

/-- JS `s.replace(/\\/g, '/')`: replace every backslash by a forward slash. -/
def jsReplaceBackslash (s : String) : String :=
  ⟨s.data.map (fun c => if c = '\\' then '/' else c)⟩

/-- JS `s.endsWith suffix`. -/
def jsEndsWith (s sfx : String) : Bool :=
  sfx.data.isSuffixOf s.data

/-- JS `s.includes sub`: substring containment. -/
def jsIncludes (s sub : String) : Bool :=
  decide (sub.data <:+: s.data)

/-- JS truthiness of an optional string field: present and non-empty. -/
def strTruthy : Option String → Bool
  | some s => !s.isEmpty
  | none => false

/-- JS truthiness of an optional numeric field: present and non-zero. -/
def natTruthy : Option Nat → Bool
  | some n => n != 0
  | none => false

/-- Split a character list at every occurrence of `sep`, keeping empty
pieces, as JS `String.prototype.split` does with a single-character
separator. -/
def splitChar (sep : Char) : List Char → List (List Char)
  | [] => [[]]
  | c :: cs =>
    let rest := splitChar sep cs
    if c = sep then [] :: rest
    else
      match rest with
      | [] => [[c]]
      | r :: rs => (c :: r) :: rs

/-- JS `s.split('/')`. -/
def jsSplitSlash (s : String) : List String :=
  (splitChar '/' s.data).map (fun l => ⟨l⟩)

/-- JS `path.basename` for forward-slash paths: the last path component. -/
def jsBasename (s : String) : String :=
  (jsSplitSlash s).getLastD s

/-! ## QualityRulesEngine (src/src/core/quality-rules-engine.js)

A rule has an optional glob `pattern`, an optional `directory`, optional size
bounds, and a `quality` map (format name → quality), modelled as an
association list in declaration order.  The glob matcher (`minimatch`) is an
injected dependency of the class, so it is a function parameter `mm` here. -/

structure Rule where
  pattern : Option String := none
  directory : Option String := none
  minWidth : Option Nat := none
  minHeight : Option Nat := none
  maxWidth : Option Nat := none
  maxHeight : Option Nat := none
  quality : List (String × Nat) := []
deriving DecidableEq

structure Metadata where
  width : Option Nat := none
  height : Option Nat := none
deriving DecidableEq

/-- `matchesDirectory` normalization of the candidate path. -/
def normalizePath (s : String) : String := jsReplaceBackslash s

/-- The rule directory, normalized and with a trailing slash appended when
absent (quality-rules-engine.js lines 64-69). -/
def dirWithSlash (ruleDirectory : String) : String :=
  let normalizedDir := jsReplaceBackslash ruleDirectory
  if jsEndsWith normalizedDir "/" then normalizedDir else normalizedDir ++ "/"

/-- `QualityRulesEngine.matchesDirectory` (lines 63-73): normalize both
strings, force a trailing slash on the directory, and test substring
containment. -/
def matchesDirectory (imagePath ruleDirectory : String) : Bool :=
  jsIncludes (normalizePath imagePath) (dirWithSlash ruleDirectory)

/-- `QualityRulesEngine.checkSizeRule` (lines 78-107). -/
def checkSizeRule (rule : Rule) (metadata : Option Metadata) : Bool :=
  if !natTruthy rule.minWidth && !natTruthy rule.minHeight &&
     !natTruthy rule.maxWidth && !natTruthy rule.maxHeight then
    true
  else
    match metadata with
    | none => false
    | some md =>
      let width := md.width.getD 0
      let height := md.height.getD 0
      if natTruthy rule.minWidth && decide (width < rule.minWidth.getD 0) then false
      else if natTruthy rule.minHeight && decide (height < rule.minHeight.getD 0) then false
      else if natTruthy rule.maxWidth && decide (width > rule.maxWidth.getD 0) then false
      else if natTruthy rule.maxHeight && decide (height > rule.maxHeight.getD 0) then false
      else true

/-- `QualityRulesEngine.ruleMatches` (lines 44-58); `mm` is the injected
`minimatch` collaborator applied to the basename. -/
def ruleMatches (mm : String → String → Bool) (rule : Rule)
    (imagePath : String) (metadata : Option Metadata) : Bool :=
  let patternMatch := !strTruthy rule.pattern || mm (jsBasename imagePath) (rule.pattern.getD "")
  let directoryMatch := !strTruthy rule.directory || matchesDirectory imagePath (rule.directory.getD "")
  let sizeMatch := checkSizeRule rule metadata
  patternMatch && directoryMatch && sizeMatch

/-- Whether any size bound is (truthily) present on the rule. -/
def sizeTruthy (rule : Rule) : Bool :=
  natTruthy rule.minWidth || natTruthy rule.minHeight ||
  natTruthy rule.maxWidth || natTruthy rule.maxHeight

/-- Count of non-wildcard characters of a pattern:
JS `pattern.replace(/[*?]/g, '').length`. -/
def nonWildcardChars (p : String) : Nat :=
  (p.data.filter (fun c => !(c = '*' || c = '?'))).length

/-- Path-segment depth of a directory:
JS `directory.split('/').filter(Boolean).length`. -/
def dirDepth (d : String) : Nat :=
  ((jsSplitSlash d).filter (fun s => !s.isEmpty)).length

/-- `QualityRulesEngine.getSpecificityScore` (lines 124-161), with every
weight scaled by 10 so the score is an exact natural number: the JS code uses
weights 4, 2, 1 and per-character / per-segment bonuses of 0.1, and a
combined-criteria bonus of `criteriaCount * 2`. -/
def getSpecificityScore10 (rule : Rule) : Nat :=
  let patScore := if strTruthy rule.pattern then
    40 + nonWildcardChars (rule.pattern.getD "") else 0
  let dirScore := if strTruthy rule.directory then
    20 + dirDepth (rule.directory.getD "") else 0
  let sizeScore := if sizeTruthy rule then 10 else 0
  let criteriaCount :=
    (if strTruthy rule.pattern then 1 else 0) +
    (if strTruthy rule.directory then 1 else 0) +
    (if sizeTruthy rule then 1 else 0)
  patScore + dirScore + sizeScore +
    (if criteriaCount > 1 then criteriaCount * 20 else 0)

/-- Stable insertion of a rule into a list already sorted by descending
specificity: the rule goes after every earlier rule of greater-or-equal
score, as JS's stable `Array.prototype.sort` guarantees. -/
def insertRuleDesc (r : Rule) : List Rule → List Rule
  | [] => [r]
  | x :: xs =>
    if getSpecificityScore10 x > getSpecificityScore10 r then
      x :: insertRuleDesc r xs
    else
      r :: x :: xs

/-- `QualityRulesEngine.sortRulesBySpecificity` (lines 112-118): stable sort
by descending specificity score, preserving declaration order on ties. -/
def sortRulesBySpecificity (rules : List Rule) : List Rule :=
  rules.foldr insertRuleDesc []

/-- JS object spread `{...base, ...upd}` on association lists: keys of `base`
keep their position with values overridden by `upd` where present; keys only
in `upd` are appended. -/
def objAssign (base upd : List (String × Nat)) : List (String × Nat) :=
  base.map (fun p => match upd.lookup p.1 with
    | some v => (p.1, v)
    | none => p) ++
  upd.filter (fun p => (base.lookup p.1).isNone)

/-- `QualityRulesEngine.getQualityForImage` (lines 17-39): filter the
specificity-sorted rules to those matching, reverse to ascending specificity,
and fold each rule's quality map over the defaults. -/
def getQualityForImage (mm : String → String → Bool) (rules : List Rule)
    (imagePath : String) (metadata : Option Metadata)
    (defaultQuality : List (String × Nat)) : List (String × Nat) :=
  let sorted := sortRulesBySpecificity rules
  let matchingRules := sorted.filter (fun r => ruleMatches mm r imagePath metadata)
  let rulesToApply := matchingRules.reverse
  rulesToApply.foldl (fun acc r => objAssign acc r.quality) defaultQuality

/-! ## FileTimestampChecker (src/src/utils/file-timestamp-checker.js)

`shouldProcess` asks a timestamp oracle (`fileStats.stat`, modelled as
`stat : String → Option Nat`, `none` when `stat` throws) for modification
times and decides whether the input must be (re)processed. -/

/-- `FileTimestampChecker.shouldProcess`: force always processes; a missing
input declines; otherwise process iff some output is missing or strictly
older than the input. -/
def shouldProcess (stat : String → Option Nat) (inputPath : String)
    (outputPaths : List String) (forceReprocess : Bool) : Bool :=
  if forceReprocess then true
  else
    match stat inputPath with
    | none => false
    | some inputModTime =>
      outputPaths.any (fun outputPath =>
        match stat outputPath with
        | none => true
        | some outputModTime => inputModTime > outputModTime)

/-! ## ImageOptimizer.optimizeImage (src/src/core/image-optimizer.js)

The per-file state machine.  External collaborators (the LFS pointer
detector, the LFS puller, the codec pipeline) are oracles in the
environment; `outputPaths` stands for
`Object.values(this.generateConfiguredPaths(filename))`. -/

inductive FileResult where
  | processed
  | skipped
  | error
  | lfsPointer
  | lfsError
deriving DecidableEq

structure OptimizeEnv where
  /-- `gitLfsDetector.isGitLfsPointer(inputPath)` before any pull. -/
  isLfsPointerBefore : Bool
  /-- `gitLfsPuller.pullFile(inputPath).success`. -/
  pullSuccess : Bool
  /-- `gitLfsDetector.isGitLfsPointer(inputPath)` re-checked after a pull. -/
  isLfsPointerAfterPull : Bool
  /-- The timestamp oracle behind `timestampChecker`. -/
  stat : String → Option Nat
  /-- `Object.values(generateConfiguredPaths(filename))`. -/
  outputPaths : List String
  /-- Whether the processing body (codec calls, file copies) completes
  without throwing; a throw is caught and mapped to `'error'`. -/
  processingOk : Bool

structure OptimizeOptions where
  forceReprocess : Bool := false
  pullLfs : Bool := false

/-- The tail of `optimizeImage` after the LFS pointer handling: timestamp
check, then the processing body (lines 84-132). -/
def optimizeBody (env : OptimizeEnv) (inputPath : String)
    (opts : OptimizeOptions) : FileResult :=
  if !shouldProcess env.stat inputPath env.outputPaths opts.forceReprocess then
    .skipped
  else if env.processingOk then .processed
  else .error

/-- `ImageOptimizer.optimizeImage` (lines 55-133). -/
def optimizeImage (env : OptimizeEnv) (inputPath : String)
    (opts : OptimizeOptions) : FileResult :=
  if env.isLfsPointerBefore then
    if opts.pullLfs then
      if !env.pullSuccess then .lfsError
      else if env.isLfsPointerAfterPull then .lfsError
      else optimizeBody env inputPath opts
    else .lfsPointer
  else optimizeBody env inputPath opts

/-! ## ErrorRecoveryManager (src/src/state/error-recovery-manager.js)

`processWithRecovery` runs one unit of work with bounded retries.  The
operation is modelled as `op : Nat → Except JsError ρ`, the outcome of its
`n`-th invocation; the error-log side effect is returned as the list of
entries appended during the invocation. -/

structure JsError where
  message : String := ""
  code : Option String := none
deriving DecidableEq

/-- The fixed allow-list of retryable error codes (line 27). -/
def retryableErrors : List String :=
  ["ENOENT", "EBUSY", "ETIMEDOUT", "ECONNRESET", "ENOTFOUND"]

/-- Lines 37-38: retryable iff the code is allow-listed or the (non-empty)
message mentions LFS. -/
def isRetryable (e : JsError) : Bool :=
  (match e.code with
   | some c => retryableErrors.contains c
   | none => false) ||
  (!e.message.isEmpty && jsIncludes e.message "LFS")

structure RecoveryConfig where
  continueOnError : Bool := false
  maxRetries : Nat := 3
  retryDelay : Nat := 1000
  exponentialBackoff : Bool := true

/-- One appended error-log entry (`ErrorLogger.log`, error-logger.js lines
10-34): file, error fields, and the attempt recorded as `retryCount`. -/
structure LogEntry where
  file : String
  message : String
  code : Option String
  attempt : Nat
deriving DecidableEq

inductive RecOutcome (ρ : Type) where
  /-- A normal return `{success, result?, error?, attempts}`. -/
  | ret (success : Bool) (result : Option ρ) (error : Option JsError) (attempts : Nat)
  /-- `throw error` propagated to the caller. -/
  | thrown (e : JsError)
deriving DecidableEq

/-- The retry delay computed on a retryable failure (lines 52-54). -/
def calculateDelay (cfg : RecoveryConfig) (attempt : Nat) : Nat :=
  if cfg.exponentialBackoff then cfg.retryDelay * 2 ^ (attempt - 1)
  else cfg.retryDelay

/-- The `for (attempt = 1; attempt <= maxRetries; attempt++)` loop of
`processWithRecovery` (lines 29-61), compiled to structural recursion on the
remaining iteration count `fuel` (`fuel = maxRetries - attempt + 1` at every
call); falling off the loop returns `{success:false, error:lastError,
attempts:maxRetries}`. -/
def processLoop (cfg : RecoveryConfig) (op : Nat → Except JsError ρ)
    (file : String) :
    Nat → Nat → Option JsError → RecOutcome ρ × List LogEntry
  | 0, _, lastError => (.ret false none lastError cfg.maxRetries, [])
  | fuel + 1, attempt, _ =>
    match op attempt with
    | .ok result => (.ret true (some result) none attempt, [])
    | .error e =>
      if !isRetryable e || attempt == cfg.maxRetries then
        let entry : LogEntry :=
          { file := file, message := e.message, code := e.code, attempt := attempt }
        if cfg.continueOnError then (.ret false none (some e) attempt, [entry])
        else (.thrown e, [entry])
      else
        processLoop cfg op file fuel (attempt + 1) (some e)

/-- `ErrorRecoveryManager.processWithRecovery` (lines 25-62): run the loop
from attempt 1 with `maxRetries` iterations available. -/
def processWithRecovery (cfg : RecoveryConfig) (op : Nat → Except JsError ρ)
    (file : String) : RecOutcome ρ × List LogEntry :=
  processLoop cfg op file cfg.maxRetries 1 none

/-! ## Orchestration loop end state (src/unnamed/part_004, ImageOptimizerApp)

Per-file results are tallied by `_updateStats`; at the end of a completed
run, `stats.errors === 0` decides between `clearState` (delete checkpoint
and error log, empty the ledger) and a final `saveState`. -/

structure Stats where
  processed : Nat := 0
  skipped : Nat := 0
  errors : Nat := 0
  lfsPointers : Nat := 0
  lfsErrors : Nat := 0
deriving DecidableEq

/-- `ImageOptimizerApp._updateStats` (part_004 lines 244-267). -/
def updateStats (s : Stats) : FileResult → Stats
  | .processed => { s with processed := s.processed + 1 }
  | .skipped => { s with skipped := s.skipped + 1 }
  | .error => { s with errors := s.errors + 1 }
  | .lfsPointer => { s with lfsPointers := s.lfsPointers + 1 }
  | .lfsError => { s with lfsErrors := s.lfsErrors + 1 }

/-- The stats accumulated over a completed (`continueOnError`) run whose
per-file results are `results`. -/
def runStats (results : List FileResult) : Stats :=
  results.foldl updateStats {}

/-- The durable artifacts and in-memory ledger at the end of a run. -/
structure JobStorage where
  stateFileExists : Bool
  errorLogExists : Bool
  ledger : List (String × FileResult)
deriving DecidableEq

/-- `ErrorRecoveryManager.clearState` (lines 105-109): delete the checkpoint
file, delete the error log, empty the in-memory ledger. -/
def clearState (_st : JobStorage) : JobStorage :=
  { stateFileExists := false, errorLogExists := false, ledger := [] }

/-- The final `saveState` call of a run with failures (part_004 lines
130-133): rewrites the checkpoint file, leaves the error log and ledger. -/
def saveStateEnd (st : JobStorage) : JobStorage :=
  { st with stateFileExists := true }

/-- Part_004 lines 127-134: clear on zero errors, otherwise save. -/
def finishJob (stats : Stats) (st : JobStorage) : JobStorage :=
  if stats.errors = 0 then clearState st else saveStateEnd st

/-- The spec's per-file failure terminal states: a processing error or an
LFS pull error (spec §4.5 marks both `Failed`). -/
def isFailureResult : FileResult → Bool
  | .error => true
  | .lfsError => true
  | _ => false

/-! ## Resume (src/unnamed/part_004, processImages lines 55-68) -/

structure Checkpoint where
  processedCount : Nat
deriving DecidableEq

structure Progress where
  processed : Nat
deriving DecidableEq

structure SavedState where
  checkpoint : Option Checkpoint := none
  progress : Option Progress := none
deriving DecidableEq

/-- JS `a || b` over an optional numeric chain: `0` and `undefined` fall
through to the right operand. -/
def jsOrNat (a : Option Nat) (b : Nat) : Nat :=
  match a with
  | some n => if n ≠ 0 then n else b
  | none => b

/-- `startIndex` (lines 56-64):
`savedState.checkpoint?.processedCount || savedState.progress?.processed || 0`
when resuming with a saved state, else 0. -/
def computeStartIndex (resumeFlag : Bool) (savedState : Option SavedState) : Nat :=
  match savedState with
  | some st =>
    if resumeFlag then
      jsOrNat (st.checkpoint.map Checkpoint.processedCount)
        (jsOrNat (st.progress.map Progress.processed) 0)
    else 0
  | none => 0

/-- `imageFiles.slice(startIndex)` (line 66): the files the loop iterates
over. -/
def filesToProcess (imageFiles : List String) (resumeFlag : Bool)
    (savedState : Option SavedState) : List String :=
  imageFiles.drop (computeStartIndex resumeFlag savedState)

/-! ## Auxiliary predicates and concrete instances used by the theorems -/

/-- Whether a recovery outcome is a successful return. -/
def isSuccessOutcome : RecOutcome ρ → Bool
  | .ret true _ _ _ => true
  | _ => false

/-- An operation that fails twice with the retryable code `EBUSY` and
succeeds on its third invocation. -/
def scenarioOp : Nat → Except JsError Nat := fun n =>
  if n < 3 then .error { message := "disk busy", code := some "EBUSY" } else .ok 42

/-- An operation that always fails with a non-retryable error. -/
def failOp : Nat → Except JsError Nat := fun _ =>
  .error { message := "bad pixel data", code := some "ECORRUPT" }

/-- A rule combining a wildcard pattern with a one-segment directory: its
specificity score is 10.1 (101 in tenths). -/
def cexCombinedRule : Rule :=
  { pattern := some "*", directory := some "d", quality := [("webp", 80)] }

/-- A pattern-only rule whose pattern has 70 non-wildcard characters: its
specificity score is 11 (110 in tenths). -/
def cexLongPatternRule : Rule :=
  { pattern := some "aaaaaaaaaaaaaaaaaaaaaaaaaaaaaaaaaaaaaaaaaaaaaaaaaaaaaaaaaaaaaaaaaaaaaa",
    quality := [("webp", 70)] }

/-- First-declared directory rule of an equal-specificity pair. -/
def dirRuleA : Rule := { directory := some "a", quality := [("webp", 50)] }

/-- Second-declared directory rule of an equal-specificity pair. -/
def dirRuleB : Rule := { directory := some "b", quality := [("webp", 90)] }

/-- Environment for a file that is not an LFS pointer and whose input
modification time cannot be obtained (the timestamp oracle returns `none`
for every path). -/
def missingInputEnv : OptimizeEnv :=
  { isLfsPointerBefore := false, pullSuccess := true, isLfsPointerAfterPull := false,
    stat := fun _ => none, outputPaths := ["optimized/a.webp"], processingOk := true }

/-- A timestamp oracle where input and sole output carry the same
modification time. -/
def equalTimesStat : String → Option Nat := fun s =>
  if s = "original/a.png" then some 5
  else if s = "optimized/a.webp" then some 5
  else none

/-! ## Helper lemmas -/

/-- Folding `updateStats` adds one to `errors` per `'error'` result. -/
theorem foldl_updateStats_errors (results : List FileResult) :
    ∀ s : Stats, (results.foldl updateStats s).errors
      = s.errors + results.count .error := by
  induction results with
  | nil => intro s; simp
  | cons r rest ih =>
    intro s
    rw [List.foldl_cons, ih, List.count_cons]
    cases r <;> simp [updateStats] <;> omega

/-- Log discipline of the retry loop: a single run of the loop appends
exactly one error-log entry when it ends in anything but success and none on
success, provided at least one iteration remains and the fuel matches the
remaining iteration count. -/
theorem processLoop_log_discipline {ρ : Type} (cfg : RecoveryConfig)
    (op : Nat → Except JsError ρ) (file : String) :
    ∀ (fuel attempt : Nat) (le : Option JsError),
      attempt + fuel = cfg.maxRetries + 1 → 1 ≤ fuel →
      (processLoop cfg op file fuel attempt le).2.length =
        (if isSuccessOutcome (processLoop cfg op file fuel attempt le).1 = true
         then 0 else 1) := by
  intro fuel
  induction fuel with
  | zero => intro attempt le hinv hfuel; omega
  | succ fuel ih =>
    intro attempt le hinv _
    simp only [processLoop]
    cases hop : op attempt with
    | ok r => simp [isSuccessOutcome]
    | error e =>
      dsimp only
      split
      · split <;> simp [isSuccessOutcome]
      · rename_i hcond
        have hne : attempt ≠ cfg.maxRetries := by
          intro h
          exact hcond (by simp [h])
        exact ih (attempt + 1) (some e) (by omega) (by omega)

/-- Shape of a terminal failure of the retry loop: if every attempt from
`attempt` up to `n` fails, the earlier ones retryably and the `n`-th one
terminally (non-retryable, or `n` is the last allowed attempt), the loop
logs one entry carrying attempt `n` and either returns the failure record or
rethrows, by `continueOnError`. -/
theorem processLoop_terminal {ρ : Type} (cfg : RecoveryConfig)
    (op : Nat → Except JsError ρ) (file : String) (n : Nat) (e : JsError)
    (hn : n ≤ cfg.maxRetries) (hop : op n = Except.error e)
    (hterm : isRetryable e = false ∨ n = cfg.maxRetries) :
    ∀ (fuel attempt : Nat) (le : Option JsError),
      attempt + fuel = cfg.maxRetries + 1 → attempt ≤ n →
      (∀ k, attempt ≤ k → k < n →
        ∃ ek, op k = Except.error ek ∧ isRetryable ek = true) →
      processLoop cfg op file fuel attempt le =
        ((if cfg.continueOnError then RecOutcome.ret false none (some e) n
          else RecOutcome.thrown e),
         [{ file := file, message := e.message, code := e.code, attempt := n }]) := by
  intro fuel
  induction fuel with
  | zero => intro attempt le hinv hle _; omega
  | succ fuel ih =>
    intro attempt le hinv hle hprev
    simp only [processLoop]
    by_cases ha : attempt = n
    · subst ha
      have hc : (!isRetryable e || attempt == cfg.maxRetries) = true := by
        rcases hterm with h | h
        · simp [h]
        · simp [h]
      rcases hco : cfg.continueOnError <;> simp [hop, hc, hco]
    · have hlt : attempt < n := lt_of_le_of_ne hle ha
      obtain ⟨ek, hopk, hret⟩ := hprev attempt le_rfl hlt
      have hc : (!isRetryable ek || attempt == cfg.maxRetries) = false := by
        simp only [hret, Bool.not_true, Bool.false_or, beq_eq_false_iff_ne, ne_eq]
        omega
      simp only [hopk, hc, Bool.false_eq_true, if_false]
      exact ih (attempt + 1) (some ek) (by omega) (by omega)
        (fun k hk1 hk2 => hprev k (by omega) hk2)

/-- Looking a key up in an appended association list falls through to the
second list when the first has no binding. -/
theorem lookup_append (l₁ l₂ : List (String × Nat)) (k : String) :
    (l₁ ++ l₂).lookup k =
      match l₁.lookup k with
      | some v => some v
      | none => l₂.lookup k := by
  induction l₁ with
  | nil => simp [List.lookup]
  | cons p rest ih =>
    obtain ⟨k', v'⟩ := p
    cases hk : (k == k') <;> simp [List.lookup, hk, ih]

/-- Looking a key up in the overridden copy of `base` (first half of the
object spread) yields the override's value where both are bound, the base's
value where only `base` binds the key, and nothing otherwise. -/
theorem lookup_map_override (base upd : List (String × Nat)) (k : String) :
    (base.map (fun p =>
      match upd.lookup p.1 with
      | some v => (p.1, v)
      | none => p)).lookup k =
      match base.lookup k with
      | some v =>
        match upd.lookup k with
        | some w => some w
        | none => some v
      | none => none := by
  induction base with
  | nil => simp [List.lookup]
  | cons p rest ih =>
    obtain ⟨k', v'⟩ := p
    cases hk : (k == k') with
    | true =>
      have hkk : k = k' := eq_of_beq hk
      subst hkk
      cases hu : upd.lookup k <;>
        simp [List.lookup, hu]
    | false =>
      cases hu : upd.lookup k' <;>
        simp [List.lookup, hu, hk, ih]

/-- Looking a key up among the spread's appended-new-keys half: bindings
whose keys already occur in `base` are filtered away. -/
theorem lookup_filter_keys (upd base : List (String × Nat)) (k : String) :
    ((upd.filter (fun p => (base.lookup p.1).isNone)).lookup k) =
      match base.lookup k with
      | some _ => none
      | none => upd.lookup k := by
  induction upd with
  | nil => cases base.lookup k <;> simp [List.lookup]
  | cons p rest ih =>
    obtain ⟨k', v'⟩ := p
    cases hk : (k == k') with
    | true =>
      have hkk : k = k' := eq_of_beq hk
      subst hkk
      cases hb : base.lookup k <;>
        simp [List.filter, List.lookup, hb, ih]
    | false =>
      cases hb : base.lookup k' <;>
        cases hbk : base.lookup k <;>
        simp [List.filter, List.lookup, hb, hbk, hk, ih]

/-- Lookup law of the JS object spread: the update's binding wins, the
base's binding survives where the update is silent. -/
theorem lookup_objAssign (base upd : List (String × Nat)) (k : String) :
    (objAssign base upd).lookup k =
      match upd.lookup k with
      | some v => some v
      | none => base.lookup k := by
  unfold objAssign
  rw [lookup_append, lookup_map_override, lookup_filter_keys]
  cases base.lookup k <;> cases upd.lookup k <;> rfl

/-! ## Claim theorems -/

/-- C1, counterexample: the path `myimages/a.png` has no segment named
`images`, yet it satisfies a rule for directory `images/` — the substring
test accepts a segment that merely ends in the rule directory's name, so the
claimed segment-boundary correctness fails. -/
theorem claim_C1_counterexample :
    matchesDirectory "myimages/a.png" "images/" = true ∧
    (jsSplitSlash "myimages/a.png").contains "images" = false := by
  decide

/-- C1, amended: the directory match normalizes both strings to forward
slashes, appends a trailing slash to the rule directory if absent, and holds
iff the normalized path contains the directory-with-trailing-slash as a
substring.  That rejects segments that strictly extend the directory name on
the right (`images-backup/`, `products-archive/`), but a segment merely
ending in the directory name (`myimages/`) does satisfy the rule, so the
test is not fully segment-boundary correct. -/
theorem claim_C1_amended :
    (∀ imagePath ruleDirectory : String,
      matchesDirectory imagePath ruleDirectory = true ↔
        ∃ u v : List Char,
          u ++ (dirWithSlash ruleDirectory).data ++ v = (normalizePath imagePath).data) ∧
    matchesDirectory "images-backup/a.png" "images/" = false ∧
    matchesDirectory "products-archive/item.png" "products/" = false ∧
    matchesDirectory "myimages/a.png" "images/" = true := by
  refine ⟨?_, by decide, by decide, by decide⟩
  intro p d
  unfold matchesDirectory jsIncludes
  rw [decide_eq_true_iff]
  exact Iff.rfl

/-- C2, counterexample: a rule combining a pattern and a directory
(specificity 10.1, i.e. 101 tenths) is outranked by a pattern-only rule
whose pattern has 70 non-wildcard characters (specificity 11, i.e. 110
tenths), so a combined rule does not outrank a pure rule regardless of
individual bonuses. -/
theorem claim_C2_counterexample :
    strTruthy cexCombinedRule.pattern = true ∧
    strTruthy cexCombinedRule.directory = true ∧
    strTruthy cexLongPatternRule.pattern = true ∧
    cexLongPatternRule.directory = none ∧
    sizeTruthy cexLongPatternRule = false ∧
    getSpecificityScore10 cexCombinedRule < getSpecificityScore10 cexLongPatternRule := by
  decide

/-- C2, amended: the combined-criteria bonus is additive (criteria count
times 2), not dominating, so a pattern+directory rule outranks a pure
pattern rule only while the pure pattern's non-wildcard character count is
below 60 plus the combined rule's own bonuses, and outranks a pure directory
rule only while that rule's segment depth is below 80 plus the combined
rule's bonuses (scores in tenths). -/
theorem claim_C2_amended (r1 r2 : Rule)
    (h1p : strTruthy r1.pattern = true) (h1d : strTruthy r1.directory = true) :
    (strTruthy r2.pattern = true → strTruthy r2.directory = false →
      sizeTruthy r2 = false →
      nonWildcardChars (r2.pattern.getD "") <
        60 + nonWildcardChars (r1.pattern.getD "") + dirDepth (r1.directory.getD "") →
      getSpecificityScore10 r2 < getSpecificityScore10 r1) ∧
    (strTruthy r2.pattern = false → strTruthy r2.directory = true →
      sizeTruthy r2 = false →
      dirDepth (r2.directory.getD "") <
        80 + nonWildcardChars (r1.pattern.getD "") + dirDepth (r1.directory.getD "") →
      getSpecificityScore10 r2 < getSpecificityScore10 r1) := by
  unfold getSpecificityScore10
  rcases hs1 : sizeTruthy r1 <;>
    constructor <;>
    intro h2p h2d h2s hlt <;>
    simp only [h1p, h1d, hs1, h2p, h2d, h2s, if_true, if_false, Bool.false_eq_true] <;>
    norm_num <;>
    omega

/-- C2, witness for the amended theorem: `hero-*` plus directory `products`
(score 106 tenths) outranks the pure pattern `*.png` (score 44 tenths). -/
theorem claim_C2_witness :
    getSpecificityScore10 { pattern := some "*.png", quality := [] } <
      getSpecificityScore10
        { pattern := some "hero-*", directory := some "products", quality := [] } :=
  (claim_C2_amended
    { pattern := some "hero-*", directory := some "products", quality := [] }
    { pattern := some "*.png", quality := [] }
    (by decide) (by decide)).1 (by decide) (by decide) (by decide) (by decide)

/-- C3: a single invocation of `processWithRecovery` appends exactly one
error-log entry when it ends in terminal failure (a non-success return or a
rethrow) and zero entries when it ends in success, regardless of how many
earlier attempts failed; in particular an operation failing twice with the
retryable code `EBUSY` and succeeding on the third call returns
`{success: true, attempts: 3}` with zero entries. -/
theorem claim_C3 :
    (∀ (ρ : Type) (cfg : RecoveryConfig) (op : Nat → Except JsError ρ)
      (file : String), 1 ≤ cfg.maxRetries →
      (processWithRecovery cfg op file).2.length =
        (if isSuccessOutcome (processWithRecovery cfg op file).1 = true
         then 0 else 1)) ∧
    processWithRecovery {} scenarioOp "img.png"
      = (.ret true (some 42) none 3, []) := by
  constructor
  · intro ρ cfg op file h
    unfold processWithRecovery
    exact processLoop_log_discipline cfg op file cfg.maxRetries 1 none
      (by omega) (by omega)
  · decide

/-- C3, witness: a non-retryable failure under the default configuration
writes exactly one entry. -/
theorem claim_C3_witness :
    1 ≤ ({} : RecoveryConfig).maxRetries ∧
    (processWithRecovery {} failOp "f.png").2.length =
      (if isSuccessOutcome (processWithRecovery {} failOp "f.png").1 = true
       then 0 else 1) :=
  ⟨by decide, claim_C3.1 Nat {} failOp "f.png" (by decide)⟩

/-- C4: when an operation's failure is terminal — the `n`-th attempt fails
with a non-retryable error, or with any error when `n` equals `maxRetries`,
all earlier attempts having failed retryably — `processWithRecovery` logs
one entry carrying the attempt count and then either rethrows the error
(`continueOnError` false) or returns `{success: false, error, attempts: n}`
(`continueOnError` true). -/
theorem claim_C4 (ρ : Type) (cfg : RecoveryConfig)
    (op : Nat → Except JsError ρ) (file : String) (n : Nat) (e : JsError)
    (h1 : 1 ≤ n) (hn : n ≤ cfg.maxRetries)
    (hprev : ∀ k, 1 ≤ k → k < n →
      ∃ ek, op k = Except.error ek ∧ isRetryable ek = true)
    (hop : op n = Except.error e)
    (hterm : isRetryable e = false ∨ n = cfg.maxRetries) :
    processWithRecovery cfg op file =
      ((if cfg.continueOnError then RecOutcome.ret false none (some e) n
        else RecOutcome.thrown e),
       [{ file := file, message := e.message, code := e.code, attempt := n }]) := by
  unfold processWithRecovery
  exact processLoop_terminal cfg op file n e hn hop hterm cfg.maxRetries 1 none
    (by omega) h1 hprev

/-- C4, witness: a first-attempt non-retryable failure with
`continueOnError` returns the failure record and logs one entry. -/
theorem claim_C4_witness :
    processWithRecovery { continueOnError := true } failOp "f.png" =
      (RecOutcome.ret false none
        (some { message := "bad pixel data", code := some "ECORRUPT" }) 1,
       [{ file := "f.png", message := "bad pixel data",
          code := some "ECORRUPT", attempt := 1 }]) := by
  have h := claim_C4 Nat { continueOnError := true } failOp "f.png" 1
    { message := "bad pixel data", code := some "ECORRUPT" }
    (by decide) (by decide)
    (fun k hk1 hk2 => (Nat.not_lt.mpr hk1 hk2).elim)
    rfl (Or.inl (by decide))
  simpa using h

/-- C5: with the resume flag and a saved state whose `progress.processed`
is `k` (and no legacy `checkpoint` field), the loop iterates over exactly
the suffix of the current enumeration starting at index `k`: element `i` of
the processed list is element `k + i` of the enumeration, and the `k`
leading files are exactly the ones left out. -/
theorem claim_C5 (imageFiles : List String) (k : Nat) (st : SavedState)
    (hcp : st.checkpoint = none) (hpr : st.progress = some ⟨k⟩) :
    filesToProcess imageFiles true (some st) = imageFiles.drop k ∧
    (∀ i : Nat, (filesToProcess imageFiles true (some st))[i]? = imageFiles[k + i]?) ∧
    imageFiles.take k ++ filesToProcess imageFiles true (some st) = imageFiles := by
  have hidx : computeStartIndex true (some st) = k := by
    simp only [computeStartIndex, hcp, hpr, jsOrNat, Option.map_none',
      Option.map_some', if_true]
    by_cases hk : k = 0 <;> simp [hk]
  have hdrop : filesToProcess imageFiles true (some st) = imageFiles.drop k := by
    unfold filesToProcess
    rw [hidx]
  refine ⟨hdrop, ?_, ?_⟩
  · intro i
    rw [hdrop]
    exact List.getElem?_drop imageFiles k i
  · rw [hdrop]
    exact List.take_append_drop k imageFiles

/-- C5, witness: `progress.processed = 5` over a 10-file enumeration resumes
at index 5 and processes exactly the last five files. -/
theorem claim_C5_witness :
    filesToProcess ["a","b","c","d","e","f","g","h","i","j"] true
      (some { checkpoint := none, progress := some ⟨5⟩ }) = ["f","g","h","i","j"] := by
  have h := (claim_C5 ["a","b","c","d","e","f","g","h","i","j"] 5
    { checkpoint := none, progress := some ⟨5⟩ } rfl rfl).1
  rw [h]
  rfl

/-- C6, counterexample: a completed run whose only per-file failure is an
LFS pull error (`'lfs-error'`, a `Failed` terminal state in the spec's
per-file machine) leaves `stats.errors = 0`, so the job deletes both the
checkpoint and the error log instead of retaining them. -/
theorem claim_C6_counterexample :
    isFailureResult .lfsError = true ∧
    (runStats [.lfsError]).errors = 0 ∧
    finishJob (runStats [.lfsError])
        { stateFileExists := true, errorLogExists := true,
          ledger := [("f.png", .lfsError)] }
      = { stateFileExists := false, errorLogExists := false, ledger := [] } := by
  decide

/-- C6, amended: the clearing decision depends on `stats.errors`, which
counts exactly the `'error'` per-file results (LFS pull failures are tallied
separately and do not prevent clearing): with zero `'error'` results the
checkpoint file, the error log and the in-memory ledger are all cleared;
with at least one `'error'` result the checkpoint is rewritten and the error
log and ledger are retained unchanged. -/
theorem claim_C6_amended (results : List FileResult) (st : JobStorage) :
    (runStats results).errors = results.count .error ∧
    ((runStats results).errors = 0 →
      finishJob (runStats results) st =
        { stateFileExists := false, errorLogExists := false, ledger := [] }) ∧
    ((runStats results).errors ≠ 0 →
      finishJob (runStats results) st = { st with stateFileExists := true }) := by
  refine ⟨by simpa using foldl_updateStats_errors results {}, ?_, ?_⟩
  · intro h
    unfold finishJob clearState
    rw [if_pos h]
  · intro h
    unfold finishJob saveStateEnd
    rw [if_neg h]

/-- C6, witness for the amended theorem: an all-success run clears
everything. -/
theorem claim_C6_witness :
    finishJob (runStats [FileResult.processed])
        { stateFileExists := true, errorLogExists := true, ledger := [] }
      = { stateFileExists := false, errorLogExists := false, ledger := [] } :=
  (claim_C6_amended [FileResult.processed]
    { stateFileExists := true, errorLogExists := true, ledger := [] }).2.1 (by decide)

/-- C7: the computed retry delay is `retryDelay` on attempt 1 regardless of
the backoff setting, and on later attempts it is
`retryDelay * 2 ^ (attempt - 1)` with exponential backoff and the constant
`retryDelay` without. -/
theorem claim_C7 :
    (∀ cfg : RecoveryConfig, calculateDelay cfg 1 = cfg.retryDelay) ∧
    (∀ (cfg : RecoveryConfig) (n : Nat), 1 < n →
      (cfg.exponentialBackoff = true →
        calculateDelay cfg n = cfg.retryDelay * 2 ^ (n - 1)) ∧
      (cfg.exponentialBackoff = false →
        calculateDelay cfg n = cfg.retryDelay)) := by
  constructor
  · intro cfg
    unfold calculateDelay
    rcases h : cfg.exponentialBackoff <;> simp [h]
  · intro cfg n _
    constructor <;> intro h <;> unfold calculateDelay <;> rw [h] <;> simp

/-- C7, witness: with `retryDelay = 50`, attempt 3 waits 200 ms under
exponential backoff and 50 ms without. -/
theorem claim_C7_witness :
    calculateDelay { retryDelay := 50 } 3 = 200 ∧
    calculateDelay { retryDelay := 50, exponentialBackoff := false } 3 = 50 := by
  constructor
  · have h := (claim_C7.2 { retryDelay := 50 } 3 (by norm_num)).1 rfl
    simpa using h
  · exact (claim_C7.2 { retryDelay := 50, exponentialBackoff := false } 3
      (by norm_num)).2 rfl

/-- C8, counterexample: with force-reprocess unset and a missing input (the
timestamp oracle yields nothing for any path), the optimizer does not
process the file but its terminal result is `'skipped'`, not the `Failed`
state the claim requires. -/
theorem claim_C8_counterexample :
    missingInputEnv.stat "original/a.png" = none ∧
    shouldProcess missingInputEnv.stat "original/a.png"
      missingInputEnv.outputPaths false = false ∧
    optimizeImage missingInputEnv "original/a.png" {} = .skipped ∧
    FileResult.skipped ≠ FileResult.error := by
  refine ⟨rfl, by decide, by decide, by decide⟩

/-- C8, amended: for every file that is not an LFS pointer, with
force-reprocess unset and a missing input modification time, the per-file
machine does not process the file and ends in the terminal state `Skipped`
(a conservative no-op), not `Processed` or `Failed`. -/
theorem claim_C8_amended (env : OptimizeEnv) (inputPath : String)
    (opts : OptimizeOptions) (hforce : opts.forceReprocess = false)
    (hlfs : env.isLfsPointerBefore = false)
    (hstat : env.stat inputPath = none) :
    shouldProcess env.stat inputPath env.outputPaths opts.forceReprocess = false ∧
    optimizeImage env inputPath opts = .skipped := by
  have hsp : shouldProcess env.stat inputPath env.outputPaths opts.forceReprocess
      = false := by
    unfold shouldProcess
    rw [hforce, hstat]
    simp
  refine ⟨hsp, ?_⟩
  unfold optimizeImage optimizeBody
  rw [hlfs, hsp]
  simp

/-- C8, witness for the amended theorem. -/
theorem claim_C8_witness :
    optimizeImage missingInputEnv "original/a.png" {} = .skipped :=
  (claim_C8_amended missingInputEnv "original/a.png" {} rfl rfl rfl).2

/-- C9, counterexample: two matching rules of equal specificity whose
quality maps share the key `webp` resolve to the FIRST-declared rule's
value, not the later-declared one as claimed: the stable descending sort
keeps declaration order among ties, the reversal then applies the
later-declared rule first, and the earlier-declared rule overwrites it. -/
theorem claim_C9_counterexample :
    getSpecificityScore10 dirRuleA = getSpecificityScore10 dirRuleB ∧
    ruleMatches (fun _ _ => false) dirRuleA "a/b/x.png" none = true ∧
    ruleMatches (fun _ _ => false) dirRuleB "a/b/x.png" none = true ∧
    dirRuleA.quality.lookup "webp" = some 50 ∧
    dirRuleB.quality.lookup "webp" = some 90 ∧
    (getQualityForImage (fun _ _ => false) [dirRuleA, dirRuleB] "a/b/x.png"
      none []).lookup "webp" = some 50 ∧
    (getQualityForImage (fun _ _ => false) [dirRuleA, dirRuleB] "a/b/x.png"
      none []).lookup "webp" ≠ some 90 := by
  decide

/-- C9, amended: for two matching rules of equal specificity, the resolved
quality map takes the EARLIER-declared rule's value on every overlapping
format key: the stable sort preserves declaration order among ties, the
reversal to ascending specificity puts the earlier-declared rule later in
application order, and later applications overwrite. -/
theorem claim_C9_amended (mm : String → String → Bool) (a b : Rule)
    (path : String) (md : Option Metadata) (dflt : List (String × Nat))
    (k : String) (va vb : Nat)
    (hs : getSpecificityScore10 a = getSpecificityScore10 b)
    (hma : ruleMatches mm a path md = true)
    (hmb : ruleMatches mm b path md = true)
    (hva : a.quality.lookup k = some va)
    (hvb : b.quality.lookup k = some vb) :
    (getQualityForImage mm [a, b] path md dflt).lookup k = some va := by
  have hsort : sortRulesBySpecificity [a, b] = [a, b] := by
    simp [sortRulesBySpecificity, insertRuleDesc, hs]
  unfold getQualityForImage
  rw [hsort]
  simp only [List.filter_cons, List.filter_nil, hma, hmb, if_true,
    List.reverse_cons, List.reverse_nil, List.nil_append, List.cons_append,
    List.foldl_cons, List.foldl_nil]
  rw [lookup_objAssign, hva]

/-- C9, witness for the amended theorem: the equal-specificity pair resolves
`webp` to the first-declared rule's 50. -/
theorem claim_C9_witness :
    (getQualityForImage (fun _ _ => false) [dirRuleA, dirRuleB] "a/b/x.png"
      none []).lookup "webp" = some 50 :=
  claim_C9_amended (fun _ _ => false) dirRuleA dirRuleB "a/b/x.png" none []
    "webp" 50 90 (by decide) (by decide) (by decide) (by decide) (by decide)

/-- C10: with force-reprocess unset and the input's modification time
available, `shouldProcess` triggers exactly when some output is missing or
strictly older than the input; equivalently it returns `false` iff every
output exists with a modification time greater than or equal to the
input's — an output whose timestamp equals the input's counts as up to
date. -/
theorem claim_C10 (stat : String → Option Nat) (inputPath : String)
    (outs : List String) (t : Nat) (hne : outs ≠ [])
    (hin : stat inputPath = some t) :
    (shouldProcess stat inputPath outs false = true ↔
      ∃ o ∈ outs, stat o = none ∨ ∃ ot, stat o = some ot ∧ ot < t) ∧
    (shouldProcess stat inputPath outs false = false ↔
      ∀ o ∈ outs, ∃ ot, stat o = some ot ∧ t ≤ ot) := by
  have htrue : shouldProcess stat inputPath outs false = true ↔
      ∃ o ∈ outs, stat o = none ∨ ∃ ot, stat o = some ot ∧ ot < t := by
    unfold shouldProcess
    rw [if_neg (by simp), hin, List.any_eq_true]
    refine exists_congr fun o => and_congr_right fun _ => ?_
    cases hst : stat o <;> simp [hst]
  refine ⟨htrue, ?_⟩
  rw [Bool.eq_false_iff, ne_eq, htrue]
  push_neg
  refine forall_congr' fun o => forall_congr' fun _ => ?_
  cases hst : stat o <;> simp [hst]

/-- C10, witness: an output with exactly the input's timestamp is up to
date, so the file is skipped. -/
theorem claim_C10_witness :
    shouldProcess equalTimesStat "original/a.png" ["optimized/a.webp"] false
      = false := by
  refine (claim_C10 equalTimesStat "original/a.png" ["optimized/a.webp"] 5
    (by decide) (by decide)).2.mpr ?_
  intro o ho
  have : o = "optimized/a.webp" := by simpa using ho
  subst this
  exact ⟨5, by decide, by omega⟩

end ImageLite
